import Mathlib

/-!
Verification development for the AutoCodeReviews repository
(src/AutoCodeReviews/main.py).

The Python source is shallowly embedded below.  Python strings are modelled
as Lean strings, with the relevant Python string primitives (startswith,
split on whitespace, the membership test `in`, slicing) implemented over the
underlying character lists so that all definitions are executable and
kernel-reducible.  The two external collaborators of handleDiff (the
filesystem read of the resolved path, and the language-model engine call)
are abstracted as function parameters returning Option, with none denoting
the failing case (a raised exception in Python).  Exceptions raised inside
handleDiff and the module-level loop are modelled with Except.
-/

namespace AutoCodeReviews

/-! ## Python string primitives -/

/-- Python substring membership test `needle in hay`, on character lists. -/
def subIn (needle : List Char) : List Char → Bool
  | [] => needle.isEmpty
  | c :: rest => needle.isPrefixOf (c :: rest) || subIn needle rest

/-- Python `needle in hay` on strings. -/
def pyIn (needle hay : String) : Bool := subIn needle.data hay.data

/-- Python `s.startswith(kw)`. -/
def pyStartsWith (s kw : String) : Bool := kw.data.isPrefixOf s.data

/-- Helper for `pySplit`: scan the characters, accumulating the current
(reversed) word, emitting a word at each whitespace run boundary. -/
def splitWsAux : List Char → List Char → List (List Char)
  | [], cur => if cur.isEmpty then [] else [cur.reverse]
  | c :: rest, cur =>
    if c.isWhitespace then
      (if cur.isEmpty then splitWsAux rest [] else cur.reverse :: splitWsAux rest [])
    else splitWsAux rest (c :: cur)

/-- Python `s.split()` with no argument: split on runs of whitespace,
dropping empty tokens. -/
def pySplit (s : String) : List String := (splitWsAux s.data []).map (fun cs => ⟨cs⟩)

/-- Python slice `s[n:]`. -/
def pyDrop (n : Nat) (s : String) : String := ⟨s.data.drop n⟩

/-- Python `s.endswith(kw)`. -/
def pyEndsWith (s kw : String) : Bool := kw.data.isSuffixOf s.data

/-- Python `os.path.join(a, b)` for the POSIX flavour used by the source:
an absolute second component replaces the first, otherwise the components
are joined with exactly one slash between them. -/
def osPathJoin (a b : String) : String :=
  if pyStartsWith b "/" then b
  else if a = "" then b
  else if pyEndsWith a "/" then a ++ b
  else a ++ "/" ++ b

/-! ## Data model of main.py -/

/-- Issue record produced by the engine (class Comment, main.py lines 22-24):
a short summary and the verbatim problem code snippet. -/
structure Comment where
  short_summary : String
  problem_code : String
deriving DecidableEq

/-- Annotation dictionary appended to retval in handleDiff
(main.py lines 64-68): path, zero-based position, and body. -/
structure Annot where
  path : String
  position : Nat
  body : String
deriving DecidableEq

/-- Exceptions that can abort one segment of handleDiff: the IndexError from
`diff[0].split()[2]`, the failure of `open(filePath)`, and an unusable
engine response. -/
inductive SegmentError
  | indexError
  | fileNotFound
  | engineError
deriving DecidableEq

/-- Module-level hard-coded path constant (main.py line 12). -/
def globalPath : String := "/home/dougl/series/centralized-pipelines-backend"

/-- Module-level prompt constant (main.py lines 14-20). -/
def prompt : String := "\nGiven the file, and the associated diff,\nreview the code as if you were doing a pull request review. \nDo not discuss things like style, standards etc. Instead, focus entirely on logical errors such as bugs.\nVery specifically explicit errors, and not possible errors.\nInclude the entire line of code where the error is verbatim in the response.\n"

/-! ## handleDiff (main.py lines 36-75) -/

/-- Line 37: `curPath = gitRoot if (os.path.isdir(gitRoot)) else globalPath`.
The filesystem predicate os.path.isdir is a parameter. -/
def curPathOf (isDir : String → Bool) (gitRoot : String) : String :=
  if isDir gitRoot then gitRoot else globalPath

/-- Line 38: `relFilePath = diff[0].split()[2][2:]`, with the IndexError
raised when the header has fewer than three whitespace tokens made explicit.
The two leading characters of the third token are stripped unconditionally:
no check of the `a/` or `b/` shape is performed. -/
def relFilePathOf (header : String) : Except SegmentError String :=
  match (pySplit header).get? 2 with
  | none => Except.error SegmentError.indexError
  | some tok => Except.ok (pyDrop 2 tok)

/-- Scan of `enumerate(diff[4:])` in the loop at lines 61-69: the index of
the first line containing the snippet, counted from the start of the
post-skip slice. -/
def findSnippet (code : String) : List String → Option Nat
  | [] => none
  | line :: rest =>
    if pyIn code line then some 0 else (findSnippet code rest).map (fun i => i + 1)

/-- One iteration of the issue loop (lines 56-72): the annotation appended
for this issue, if any.  The position is the index `i` of `enumerate(diff[4:])`
at the first matching line; an unmatched issue only prints a diagnostic and
appends nothing. -/
def locateIssue (diff : List String) (relPath : String) (c : Comment) : Option Annot :=
  (findSnippet c.problem_code (diff.drop 4)).map (fun i => ⟨relPath, i, c.short_summary⟩)

/-- Accumulation of retval over all issues (lines 55-75). -/
def locateIssues (diff : List String) (relPath : String) (cs : List Comment) : List Annot :=
  cs.filterMap (locateIssue diff relPath)

/-- Body of handleDiff once curPath is fixed (lines 38-75).  readFile models
`open(filePath).read()` with none for a raised file error; engine models the
structured LLM query with none for an unusable response. -/
def handleDiffAt (readFile : String → Option String)
    (engine : String → Option (List Comment))
    (curPath : String) (diff : List String) : Except SegmentError (List Annot) :=
  match diff with
  | [] => Except.error SegmentError.indexError
  | header :: _ =>
    match relFilePathOf header with
    | Except.error e => Except.error e
    | Except.ok relFilePath =>
      let filePath := osPathJoin curPath relFilePath
      match readFile filePath with
      | none => Except.error SegmentError.fileNotFound
      | some file_content =>
        let message := prompt ++ "\nFile:\n```" ++ file_content ++ " \n```" ++
          "\nDiff:\n```" ++ String.join diff ++ "\n```"
        match engine message with
        | none => Except.error SegmentError.engineError
        | some issues => Except.ok (locateIssues diff relFilePath issues)

/-- handleDiff (lines 36-75): pick curPath per line 37, then run the body. -/
def handleDiff (isDir : String → Bool) (readFile : String → Option String)
    (engine : String → Option (List Comment))
    (diff : List String) (gitRoot : String) : Except SegmentError (List Annot) :=
  handleDiffAt readFile engine (curPathOf isDir gitRoot) diff

/-! ## split_by_separator (main.py lines 78-94) -/

/-- Loop of split_by_separator with explicit result and current_group
accumulators, mirroring the Python statement for statement. -/
def splitBySeparatorAux (separator_keyword : String) :
    List String → List (List String) → List String → List (List String)
  | [], result, current_group =>
    if current_group.isEmpty then result else result ++ [current_group]
  | line :: rest, result, current_group =>
    if pyStartsWith line separator_keyword then
      splitBySeparatorAux separator_keyword rest
        (if current_group.isEmpty then result else result ++ [current_group]) [line]
    else
      splitBySeparatorAux separator_keyword rest result
        (if current_group.isEmpty then current_group else current_group ++ [line])

/-- split_by_separator (lines 78-94).  The Python default for
separator_keyword is "diff"; the module-level caller uses that default. -/
def split_by_separator (lines : List String) (separator_keyword : String) :
    List (List String) :=
  splitBySeparatorAux separator_keyword lines [] []

/-! ## Module-level orchestration (main.py lines 96-104) -/

/-- Loop `for x in split_by_separator(file_content): retval.extend(handleDiff(x, ...))`
with the retval accumulator explicit.  An exception in handleDiff propagates
and aborts the whole loop, exactly as an uncaught Python exception would. -/
def runSegments (isDir : String → Bool) (readFile : String → Option String)
    (engine : String → Option (List Comment)) (gitRoot : String) :
    List (List String) → List Annot → Except SegmentError (List Annot)
  | [], retval => Except.ok retval
  | x :: rest, retval =>
    match handleDiff isDir readFile engine x gitRoot with
    | Except.error e => Except.error e
    | Except.ok anns => runSegments isDir readFile engine gitRoot rest (retval ++ anns)

/-- Module-level run (lines 96-104): split the input lines on the "diff"
separator and process every segment in order. -/
def runPipeline (isDir : String → Bool) (readFile : String → Option String)
    (engine : String → Option (List Comment))
    (file_content : List String) (gitRoot : String) : Except SegmentError (List Annot) :=
  runSegments isDir readFile engine gitRoot (split_by_separator file_content "diff") []

/-! ## Helper lemmas about split_by_separator -/

/-- Once a group is open (current_group nonempty), every remaining line ends
up in the output: the flattened result is the flattened previous results,
then the open group, then all remaining lines. -/
lemma splitAux_flatten_cons (sep : String) :
    ∀ (lines : List String) (result : List (List String)) (c : String) (cs : List String),
    (splitBySeparatorAux sep lines result (c :: cs)).flatten =
      result.flatten ++ (c :: cs) ++ lines := by
  intro lines
  induction lines with
  | nil => intro result c cs; simp [splitBySeparatorAux]
  | cons line rest ih =>
    intro result c cs
    cases h : pyStartsWith line sep with
    | true =>
      simp only [splitBySeparatorAux, h, List.isEmpty_cons, Bool.false_eq_true,
        if_false, if_true]
      rw [ih]
      simp
    | false =>
      simp only [splitBySeparatorAux, h, List.isEmpty_cons, Bool.false_eq_true,
        if_false]
      rw [List.cons_append, ih]
      simp

/-- Before the first separator line is seen (current_group empty), lines are
dropped; from the first separator line on, everything is kept. -/
lemma splitAux_flatten_nil (sep : String) :
    ∀ (lines : List String) (result : List (List String)),
    (splitBySeparatorAux sep lines result []).flatten =
      result.flatten ++ lines.dropWhile (fun l => !pyStartsWith l sep) := by
  intro lines
  induction lines with
  | nil => intro result; simp [splitBySeparatorAux]
  | cons line rest ih =>
    intro result
    cases h : pyStartsWith line sep with
    | true =>
      simp only [splitBySeparatorAux, h, List.isEmpty_nil, if_true,
        List.dropWhile_cons, Bool.not_true]
      rw [splitAux_flatten_cons]
      simp
    | false =>
      simp only [splitBySeparatorAux, h, Bool.false_eq_true, if_false,
        List.isEmpty_nil, if_true, List.dropWhile_cons, Bool.not_false]
      exact ih result

/-- An input with no separator line produces no segment at all. -/
lemma splitAux_no_sep (sep : String) :
    ∀ lines : List String, (∀ l ∈ lines, pyStartsWith l sep = false) →
    splitBySeparatorAux sep lines [] [] = [] := by
  intro lines
  induction lines with
  | nil => intro _; rfl
  | cons line rest ih =>
    intro h
    have hl : pyStartsWith line sep = false := h line (by simp)
    simp only [splitBySeparatorAux, hl, Bool.false_eq_true, if_false,
      List.isEmpty_nil, if_true]
    exact ih (fun l hl' => h l (by simp [hl']))

/-- Shape of a well-formed segment: nonempty, the head is a separator line
and no other line is. -/
def goodSeg (sep : String) (g : List String) : Prop :=
  ∃ hd tl, g = hd :: tl ∧ pyStartsWith hd sep = true ∧
    ∀ l ∈ tl, pyStartsWith l sep = false

/-- Invariant of the split loop: if all flushed groups are well formed and
the open group is empty or well formed, every group of the final result is
well formed. -/
lemma splitAux_good (sep : String) :
    ∀ (lines : List String) (result : List (List String)) (cur : List String),
    (∀ g ∈ result, goodSeg sep g) → (cur = [] ∨ goodSeg sep cur) →
    ∀ g ∈ splitBySeparatorAux sep lines result cur, goodSeg sep g := by
  intro lines
  induction lines with
  | nil =>
    intro result cur hres hcur g hg
    rcases cur with _ | ⟨c, cs⟩
    · simp only [splitBySeparatorAux, List.isEmpty_nil, if_true] at hg
      exact hres g hg
    · simp only [splitBySeparatorAux, List.isEmpty_cons, Bool.false_eq_true,
        if_false, List.mem_append, List.mem_singleton] at hg
      rcases hg with hg | rfl
      · exact hres g hg
      · exact hcur.resolve_left (by simp)
  | cons line rest ih =>
    intro result cur hres hcur g hg
    cases h : pyStartsWith line sep with
    | true =>
      rw [splitBySeparatorAux, if_pos h] at hg
      refine ih _ [line] ?_ (Or.inr ⟨line, [], rfl, h, by simp⟩) g hg
      rcases cur with _ | ⟨c, cs⟩
      · simpa using hres
      · simp only [List.isEmpty_cons, Bool.false_eq_true, if_false]
        intro g' hg'
        rcases List.mem_append.mp hg' with hg' | hg'
        · exact hres g' hg'
        · rw [List.mem_singleton.mp hg']
          exact hcur.resolve_left (by simp)
    | false =>
      rw [splitBySeparatorAux, if_neg (by simp [h])] at hg
      rcases cur with _ | ⟨c, cs⟩
      · exact ih _ _ hres (Or.inl rfl) g (by simpa using hg)
      · simp only [List.isEmpty_cons, Bool.false_eq_true, if_false] at hg
        refine ih _ _ hres (Or.inr ?_) g hg
        obtain ⟨hd, tl, heq, hhd, htl⟩ := hcur.resolve_left (by simp)
        obtain ⟨rfl, rfl⟩ : c = hd ∧ cs = tl := by
          constructor <;> [exact (List.cons.injEq .. ▸ heq).1; exact (List.cons.injEq .. ▸ heq).2]
        refine ⟨c, cs ++ [line], rfl, hhd, ?_⟩
        intro l hl
        rcases List.mem_append.mp hl with hl | hl
        · exact htl l hl
        · rw [List.mem_singleton.mp hl]; exact h

/-! ## Helper lemmas about findSnippet -/

/-- The scan finds nothing exactly when no scanned line contains the
snippet. -/
lemma findSnippet_none_iff (code : String) (ls : List String) :
    findSnippet code ls = none ↔ ∀ l ∈ ls, pyIn code l = false := by
  induction ls with
  | nil => simp [findSnippet]
  | cons line rest ih =>
    cases h : pyIn code line with
    | true => simp [findSnippet, h]
    | false => simp [findSnippet, h, ih]

/-- A successful scan returns the index of a containing line, and every
earlier scanned line does not contain the snippet. -/
lemma findSnippet_some (code : String) :
    ∀ (ls : List String) (i : Nat), findSnippet code ls = some i →
      (∃ line, ls.get? i = some line ∧ pyIn code line = true) ∧
      ∀ j, j < i → ∀ l, ls.get? j = some l → pyIn code l = false := by
  intro ls
  induction ls with
  | nil => intro i hi; simp [findSnippet] at hi
  | cons line rest ih =>
    intro i hi
    cases h : pyIn code line with
    | true =>
      rw [findSnippet, if_pos h] at hi
      obtain rfl : 0 = i := Option.some.inj hi
      exact ⟨⟨line, rfl, h⟩, fun j hj => by omega⟩
    | false =>
      rw [findSnippet, if_neg (by simp [h])] at hi
      obtain ⟨i', hi', rfl⟩ := Option.map_eq_some'.mp hi
      obtain ⟨⟨l0, hl0, hpy0⟩, hbefore⟩ := ih i' hi'
      refine ⟨⟨l0, by simpa using hl0, hpy0⟩, ?_⟩
      intro j hj l hl
      match j with
      | 0 => exact (Option.some.inj hl) ▸ h
      | j' + 1 =>
        exact hbefore j' (by omega) l (by simpa using hl)

/-- If some scanned line contains the snippet, the scan succeeds. -/
lemma findSnippet_isSome (code : String) (ls : List String)
    (hex : ∃ l ∈ ls, pyIn code l = true) : ∃ i, findSnippet code ls = some i := by
  cases h : findSnippet code ls with
  | some i => exact ⟨i, rfl⟩
  | none =>
    obtain ⟨l, hl, hpy⟩ := hex
    have hc := (findSnippet_none_iff code ls).mp h l hl
    rw [hpy] at hc
    exact absurd hc (by simp)

/-! ## Helper lemma about the orchestration loop -/

/-- If any segment of the list raises, the whole loop raises: the Python
for-loop at module level has no exception handler. -/
lemma runSegments_error (isDir : String → Bool) (readFile : String → Option String)
    (engine : String → Option (List Comment)) (gitRoot : String) :
    ∀ (segs : List (List String)) (retval : List Annot),
    (∃ seg ∈ segs, ∃ e, handleDiff isDir readFile engine seg gitRoot = Except.error e) →
    ∃ e, runSegments isDir readFile engine gitRoot segs retval = Except.error e := by
  intro segs
  induction segs with
  | nil => intro retval h; simp at h
  | cons x rest ih =>
    intro retval h
    cases hx : handleDiff isDir readFile engine x gitRoot with
    | error e => exact ⟨e, by rw [runSegments, hx]⟩
    | ok anns =>
      obtain ⟨seg, hseg, e, he⟩ := h
      rcases List.mem_cons.mp hseg with rfl | hseg
      · rw [hx] at he; exact absurd he (by simp)
      · rw [runSegments, hx]
        exact ih (retval ++ anns) ⟨seg, hseg, e, he⟩

/-! ## Concrete fixtures used by counterexamples and witnesses -/

/-- Segment of the spec example for snippet matching: the header line
followed by the four body lines of the claim. -/
def segC1 : List String :=
  ["diff --git a/x.py b/x.py", "---", "+++", "@@ ...", "+def f(): return 1/0"]

/-- Issue of the spec example for snippet matching. -/
def issueC1 : Comment := ⟨"division by zero", "1/0"⟩

/-- Stub filesystem predicate: every path is a directory. -/
def constTrue : String → Bool := fun _ => true

/-- Stub filesystem predicate: no path is a directory. -/
def constFalse : String → Bool := fun _ => false

/-- Stub source-content collaborator: every read succeeds. -/
def stubRead : String → Option String := fun _ => some "content"

/-- Stub engine: always one issue whose snippet is 1/0. -/
def stubEngine : String → Option (List Comment) := fun _ => some [⟨"summary", "1/0"⟩]

/-- Input whose first segment has a malformed header and whose second
segment is well formed. -/
def linesC3 : List String :=
  ["diff", "diff --git a/x.py b/x.py", "---", "+++", "@@", "+1/0"]

/-- Second segment of linesC3, taken alone. -/
def segC3good : List String := ["diff --git a/x.py b/x.py", "---", "+++", "@@", "+1/0"]

/-! ## Claims -/

/-- C1, counterexample.  On the segment of the spec example the loop over
`enumerate(diff[4:])` emits position 0, not 3: no returned annotation has
position 3. -/
theorem c1_counterexample :
    locateIssues segC1 "x.py" [issueC1] = [⟨"x.py", 0, "division by zero"⟩] ∧
    ¬ ∃ a ∈ locateIssues segC1 "x.py" [issueC1], a.position = 3 := by
  exact ⟨rfl, by decide⟩

/-- C1, amended.  Locating the spec example returns exactly one annotation
whose position is 0: the emitted position is the matching line index within
the post-skip slice `diff[4:]` (the body index minus 3), not the index
within the segment body; index 0 of the post-skip slice is the matching
line. -/
theorem c1_position_is_post_skip_offset :
    locateIssues segC1 "x.py" [issueC1] = [⟨"x.py", 0, "division by zero"⟩] ∧
    (segC1.drop 4).get? 0 = some "+def f(): return 1/0" :=
  ⟨rfl, rfl⟩

/-- C2, counterexample.  A header whose third token does not begin with
`a/` or `b/` does not fail at all: the first two characters are stripped
blindly and resolution succeeds. -/
theorem c2_counterexample :
    relFilePathOf "diff --git x/src/foo.py b/src/foo.py" = Except.ok "src/foo.py" ∧
    ¬ ∃ e, relFilePathOf "diff --git x/src/foo.py b/src/foo.py" = Except.error e := by
  refine ⟨rfl, ?_⟩
  rintro ⟨e, he⟩
  rw [show relFilePathOf "diff --git x/src/foo.py b/src/foo.py" =
    Except.ok "src/foo.py" from rfl] at he
  exact Except.noConfusion he

/-- C2, amended.  Path resolution fails only when the header has fewer than
three whitespace tokens, and then with the IndexError of `diff[0].split()[2]`
(the code defines no MalformedHeaderError); whenever a third token exists,
resolution succeeds by stripping its first two characters, with no check of
the `a/` or `b/` shape. -/
theorem c2_header_failure_modes (header : String) :
    ((pySplit header).length < 3 →
      relFilePathOf header = Except.error SegmentError.indexError) ∧
    (∀ tok, (pySplit header).get? 2 = some tok →
      relFilePathOf header = Except.ok (pyDrop 2 tok)) := by
  constructor
  · intro h
    have hn : (pySplit header).get? 2 = none := by
      rw [List.get?_eq_none]; omega
    unfold relFilePathOf
    rw [hn]
  · intro tok h
    unfold relFilePathOf
    rw [h]

/-- C2, witness of the amended claim at the two concrete headers. -/
theorem c2_witness :
    relFilePathOf "diff --git" = Except.error SegmentError.indexError ∧
    relFilePathOf "diff --git x/src/foo.py b/src/foo.py" = Except.ok "src/foo.py" :=
  ⟨(c2_header_failure_modes "diff --git").1 (by decide),
   (c2_header_failure_modes "diff --git x/src/foo.py b/src/foo.py").2
     "x/src/foo.py" (by decide)⟩

/-- C3, counterexample.  With a first segment whose header is malformed and
a second segment that succeeds on its own, the module-level loop raises and
the run produces no annotation list at all: the successful segment does not
contribute to any output. -/
theorem c3_counterexample :
    runPipeline constTrue stubRead stubEngine linesC3 "/repo" =
      Except.error SegmentError.indexError ∧
    handleDiff constTrue stubRead stubEngine segC3good "/repo" =
      Except.ok [⟨"x.py", 0, "summary"⟩] ∧
    split_by_separator linesC3 "diff" = [["diff"], segC3good] :=
  ⟨rfl, rfl, rfl⟩

/-- C3, amended.  A segment-level error aborts the whole run: the loop
`for x in split_by_separator(...): retval.extend(handleDiff(x, ...))` has no
exception handler, so the first failing segment raises out of the loop and
no annotations are written, including those of segments that succeeded. -/
theorem c3_error_aborts_run (isDir : String → Bool) (readFile : String → Option String)
    (engine : String → Option (List Comment)) (lines : List String) (gitRoot : String)
    (h : ∃ seg ∈ split_by_separator lines "diff",
      ∃ e, handleDiff isDir readFile engine seg gitRoot = Except.error e) :
    ∃ e, runPipeline isDir readFile engine lines gitRoot = Except.error e :=
  runSegments_error isDir readFile engine gitRoot (split_by_separator lines "diff") [] h

/-- C3, witness of the amended claim at the concrete two-segment input. -/
theorem c3_witness :
    ∃ e, runPipeline constTrue stubRead stubEngine linesC3 "/repo" = Except.error e :=
  c3_error_aborts_run constTrue stubRead stubEngine linesC3 "/repo"
    ⟨["diff"], by decide, SegmentError.indexError, rfl⟩

/-- C5.  Segmentation is a lossless partition: flattening all segments in
order reproduces the input with the lines preceding the first separator
line removed. -/
theorem c5_segmentation_lossless (lines : List String) (sep : String) :
    (split_by_separator lines sep).flatten =
      lines.dropWhile (fun l => !pyStartsWith l sep) := by
  simpa [split_by_separator] using splitAux_flatten_nil sep lines []

/-- C6.  Edge cases of segmentation: empty input gives no segment; input
with no separator line gives no segment; two consecutive separator lines
give a first segment whose body is empty, preserved in the result. -/
theorem c6_segmentation_edge_cases :
    (∀ sep : String, split_by_separator [] sep = []) ∧
    (∀ (lines : List String) (sep : String), (∀ l ∈ lines, pyStartsWith l sep = false) →
      split_by_separator lines sep = []) ∧
    split_by_separator ["diff --git a/old b/old", "diff --git a/new b/new"] "diff" =
      [["diff --git a/old b/old"], ["diff --git a/new b/new"]] :=
  ⟨fun _ => rfl, fun lines sep h => splitAux_no_sep sep lines h, by decide⟩

/-- C6, witness at a concrete separator-free input. -/
theorem c6_witness : split_by_separator ["hello", "world"] "diff" = [] :=
  c6_segmentation_edge_cases.2.1 ["hello", "world"] "diff" (by decide)

/-- C7.  Snippet matching yields at most one annotation per issue: exactly
one, anchored at the earliest scanned line containing the snippet, when a
match exists; none when no scanned line contains the snippet (the issue is
only reported in a printed diagnostic). -/
theorem c7_snippet_first_match (diff : List String) (rel : String) (c : Comment) :
    (locateIssues diff rel [c]).length ≤ 1 ∧
    ((∀ l ∈ diff.drop 4, pyIn c.problem_code l = false) →
      locateIssues diff rel [c] = []) ∧
    ((∃ l ∈ diff.drop 4, pyIn c.problem_code l = true) →
      ∃ i line, locateIssues diff rel [c] = [⟨rel, i, c.short_summary⟩] ∧
        (diff.drop 4).get? i = some line ∧ pyIn c.problem_code line = true ∧
        ∀ j, j < i → ∀ l, (diff.drop 4).get? j = some l →
          pyIn c.problem_code l = false) := by
  refine ⟨?_, ?_, ?_⟩
  · cases h : locateIssue diff rel c <;> simp [locateIssues, h]
  · intro hall
    have hn : findSnippet c.problem_code (diff.drop 4) = none :=
      (findSnippet_none_iff _ _).mpr hall
    simp [locateIssues, locateIssue, hn]
  · intro hex
    obtain ⟨i, hi⟩ := findSnippet_isSome c.problem_code (diff.drop 4) hex
    obtain ⟨⟨line, hline, hpy⟩, hbefore⟩ := findSnippet_some c.problem_code _ i hi
    exact ⟨i, line, by simp [locateIssues, locateIssue, hi], hline, hpy, hbefore⟩

/-- C7, witness at the spec example segment and issue. -/
theorem c7_witness :
    (locateIssues segC1 "x.py" [issueC1]).length ≤ 1 ∧
    (∃ i line, locateIssues segC1 "x.py" [issueC1] = [⟨"x.py", i, "division by zero"⟩] ∧
      (segC1.drop 4).get? i = some line ∧ pyIn "1/0" line = true ∧
      ∀ j, j < i → ∀ l, (segC1.drop 4).get? j = some l → pyIn "1/0" l = false) :=
  ⟨(c7_snippet_first_match segC1 "x.py" issueC1).1,
   (c7_snippet_first_match segC1 "x.py" issueC1).2.2 (by decide)⟩

/-- C8.  Resolving the spec example header against root /repo gives
/repo/src/foo.py: the third whitespace token is a/src/foo.py, its first two
characters are stripped, and the remainder is joined with the root. -/
theorem c8_path_resolution :
    (pySplit "diff --git a/src/foo.py b/src/foo.py").get? 2 = some "a/src/foo.py" ∧
    relFilePathOf "diff --git a/src/foo.py b/src/foo.py" = Except.ok "src/foo.py" ∧
    osPathJoin "/repo" "src/foo.py" = "/repo/src/foo.py" := by
  exact ⟨by decide, rfl, by decide⟩

/-- C9.  When the supplied root is not an existing directory, handleDiff
silently substitutes the module-level globalPath constant and behaves
exactly as if globalPath had been passed, with no error and no
diagnostic. -/
theorem c9_global_root_fallback (isDir : String → Bool) (readFile : String → Option String)
    (engine : String → Option (List Comment)) (diff : List String) (gitRoot : String)
    (h : isDir gitRoot = false) :
    curPathOf isDir gitRoot = globalPath ∧
    handleDiff isDir readFile engine diff gitRoot =
      handleDiff isDir readFile engine diff globalPath := by
  have h1 : curPathOf isDir gitRoot = globalPath := by simp [curPathOf, h]
  have h2 : curPathOf isDir globalPath = globalPath := by simp [curPathOf]
  exact ⟨h1, by rw [handleDiff, handleDiff, h1, h2]⟩

/-- C9, witness at a nonexistent root with concrete stubs. -/
theorem c9_witness :
    curPathOf constFalse "/nowhere" = globalPath ∧
    handleDiff constFalse stubRead stubEngine segC3good "/nowhere" =
      handleDiff constFalse stubRead stubEngine segC3good globalPath :=
  c9_global_root_fallback constFalse stubRead stubEngine segC3good "/nowhere" rfl

/-- C10.  Every segment produced by split_by_separator is nonempty, starts
with a separator line, and contains no further separator line. -/
theorem c10_segment_shape (lines : List String) (sep : String) (g : List String)
    (hg : g ∈ split_by_separator lines sep) :
    ∃ hd tl, g = hd :: tl ∧ pyStartsWith hd sep = true ∧
      ∀ l ∈ tl, pyStartsWith l sep = false :=
  splitAux_good sep lines [] [] (by simp) (Or.inl rfl) g hg

/-- C10, witness at a concrete two-line input with one segment. -/
theorem c10_witness :
    ∃ hd tl, (["diff --git a/x b/x", "+x"] : List String) = hd :: tl ∧
      pyStartsWith hd "diff" = true ∧ ∀ l ∈ tl, pyStartsWith l "diff" = false :=
  c10_segment_shape ["diff --git a/x b/x", "+x"] "diff"
    ["diff --git a/x b/x", "+x"] (by decide)

end AutoCodeReviews
